import Mathlib

/-!
Verification development for the jamz music-library tool
(`src/jamz/jamz.py`, with an earlier iteration in `src/music_renamer.py`).

The development shallowly embeds the tag-normalization and
filename-templating logic of `process_file`, the `sanitize` helper, and
the `rename`/`add` workflows.  Python dictionaries are modelled as
association lists built by in-place insertion (`dictInsert`), Python
exceptions as `Except` errors, and the filesystem mutations as an
explicit list of `FsAction` values emitted by each run.
-/

namespace Jamz

/-- Scalar tag value: a Python string or an integer-like value. -/
inductive Scalar where
  | str (s : String)
  | int (n : Int)
  deriving DecidableEq, Repr

/-- Raw tag value as handed over by the tag reader: a single scalar or an
ordered sequence of scalars (mutagen uses lists for most formats). -/
inductive RawValue where
  | scalar (v : Scalar)
  | seq (vs : List Scalar)
  deriving DecidableEq, Repr

/-- Python exceptions reachable in the embedded fragment outside of
string formatting. -/
inductive PyErr where
  | typeError
  | indexError
  deriving DecidableEq, Repr

/-- Errors raised by `str.format`: `valueError` for malformed placeholder
syntax, `indexError` for positional fields (no positional arguments are
supplied by `template.format(**first_tags)`), `keyError k` for a named
field `k` that is absent from the keyword dictionary. -/
inductive FmtErr where
  | valueError
  | indexError
  | keyError (key : String)
  deriving DecidableEq, Repr

/-- An error escaping one `process_file` call. -/
inductive RunErr where
  | py (e : PyErr)
  | fmt (e : FmtErr)
  deriving DecidableEq, Repr

/-- The normalized tag dictionary (`first_tags` in the source). -/
abbrev TagDict := List (String × Scalar)

/-- The raw tag dictionary (`file.tags` in the source). -/
abbrev RawTags := List (String × RawValue)

/-- Python `str()` on the scalars of our domain. -/
def pyStr : Scalar → String
  | .str s => s
  | .int n => toString n

/-- Python dictionary assignment `d[k] = v`: overwrite the value in place
when the key exists (keeping its position), append otherwise. -/
def dictInsert : List (String × α) → String → α → List (String × α)
  | [], k, v => [(k, v)]
  | (k', v') :: rest, k, v =>
      if k' = k then (k, v) :: rest else (k', v') :: dictInsert rest k v

/-- One step of the normalization loop of `process_file`:
`try: value = value[0] except TypeError: pass`.  Python subscripting
`value[0]` raises `TypeError` on an integer (so the original value is
kept), yields the first character of a nonempty string, the first
element of a nonempty list, and raises an uncaught `IndexError` on an
empty string or list. -/
def normalizeValue : RawValue → Except PyErr Scalar
  | .scalar (.int n) => .ok (.int n)
  | .scalar (.str s) =>
      match s.data with
      | [] => .error .indexError
      | c :: _ => .ok (.str (String.singleton c))
  | .seq [] => .error .indexError
  | .seq (v :: _) => .ok v

/-- The normalization loop of `process_file` (`for key, value in
file.tags.items(): ... first_tags[key] = value`), building `first_tags`
by dictionary insertion in iteration order. -/
def normalizeLoop (acc : TagDict) : RawTags → Except PyErr TagDict
  | [] => .ok acc
  | (k, v) :: rest =>
      match normalizeValue v with
      | .error e => .error e
      | .ok s => normalizeLoop (dictInsert acc k s) rest

/-- `first_tags` as computed from the raw tags. -/
def normalizeTags (raw : RawTags) : Except PyErr TagDict :=
  normalizeLoop [] raw

/-- The track-number derivation of `process_file`:
`TRCK` is preferred and goes through `str(...).split("/")[0]` (the
characters before the first slash); otherwise the `tracknumber` value is
used verbatim, and the subsequent `len(tracknumber)` call raises
`TypeError` when that value is not a string; with neither key the track
number stays the empty string. -/
def deriveTracknumber (d : TagDict) : Except PyErr String :=
  match List.lookup ("TRCK") d with
  | some v => .ok (String.mk ((pyStr v).data.takeWhile (fun c => c ≠ '/')))
  | none =>
      match List.lookup ("tracknumber") d with
      | some (.str s) => .ok s
      | some (.int _) => .error .typeError
      | none => .ok ("")

/-- Python `str.zfill`: pad on the left with `'0'` up to `width`, except
that a leading `'+'` or `'-'` stays in front of the inserted padding. -/
def zfill (width : Nat) (s : String) : String :=
  if width ≤ s.length then s
  else
    match s.data with
    | [] => String.mk (List.replicate width '0')
    | c :: rest =>
        if c = '+' ∨ c = '-' then
          String.mk (c :: (List.replicate (width - s.length) '0' ++ rest))
        else
          String.mk (List.replicate (width - s.length) '0' ++ (c :: rest))

/-- Tag resolution of `process_file` before template substitution:
normalize the raw tags, derive the track number, add
`jamz_padded_tracknumber` when the track string is nonempty, and set
`jamz_original_suffix` to the file suffix. -/
def resolveTags (raw : RawTags) (suffix : String) : Except PyErr TagDict :=
  match normalizeTags raw with
  | .error e => .error e
  | .ok ft =>
      match deriveTracknumber ft with
      | .error e => .error e
      | .ok t =>
          .ok (dictInsert
            (if 0 < t.length then
              dictInsert ft ("jamz_padded_tracknumber") (.str (zfill 2 t))
             else ft)
            ("jamz_original_suffix") (.str suffix))

/-- The characters replaced by `sanitize` (`[/\:*?"<>|]` as a set). -/
def forbiddenChar (c : Char) : Bool :=
  c = '/' ∨ c = '\\' ∨ c = ':' ∨ c = '*' ∨ c = '?' ∨ c = '"' ∨
    c = '<' ∨ c = '>' ∨ c = '|'

/-- One character of the `re.sub` pass of `sanitize`. -/
def replaceChar (c : Char) : Char :=
  if forbiddenChar c then '_' else c

/-- A character removed by `rstrip(' .')`. -/
def stripChar (c : Char) : Bool :=
  c = ' ' ∨ c = '.'

/-- Python `rstrip(' .')` on a character list. -/
def pyRstrip (l : List Char) : List Char :=
  (l.reverse.dropWhile stripChar).reverse

/-- `sanitize` from the source: replace each of the characters
`/ \ : * ? " < > |` by an underscore, then strip trailing spaces and
periods.  Total on all strings. -/
def sanitize (s : String) : String :=
  String.mk (pyRstrip (s.data.map replaceChar))

/-- One token of a format template: a literal piece, a positional
replacement field (empty or all-digit field name), or a named field. -/
inductive FmtItem where
  | lit (s : String)
  | pos
  | field (name : String)
  deriving DecidableEq, Repr

/-- Classification of a replacement-field name: empty and all-digit
names are positional in `str.format`, everything else is a keyword. -/
def classifyField (cs : List Char) : FmtItem :=
  if cs.all Char.isDigit then .pos else .field (String.mk cs)

/-- Tokenizer for `str.format` templates.  The second argument is
`some acc` while scanning a replacement field (accumulated characters in
reverse).  `{{` and `}}` are brace escapes; a stray single brace and a
`{` inside a field name raise `ValueError`. -/
def parseFmtAux : List Char → Option (List Char) → Except FmtErr (List FmtItem)
  | [], none => .ok []
  | [], some _ => .error .valueError
  | c :: rest, some acc =>
      if c = '}' then
        match parseFmtAux rest none with
        | .error e => .error e
        | .ok items => .ok (classifyField acc.reverse :: items)
      else if c = '{' then .error .valueError
      else parseFmtAux rest (some (c :: acc))
  | c :: rest, none =>
      if c = '{' then
        match rest with
        | [] => .error .valueError
        | c2 :: rest2 =>
            if c2 = '{' then
              match parseFmtAux rest2 none with
              | .error e => .error e
              | .ok items => .ok (.lit ("\x7b") :: items)
            else parseFmtAux (c2 :: rest2) (some [])
      else if c = '}' then
        match rest with
        | [] => .error .valueError
        | c2 :: rest2 =>
            if c2 = '}' then
              match parseFmtAux rest2 none with
              | .error e => .error e
              | .ok items => .ok (.lit ("\x7d") :: items)
            else .error .valueError
      else
        match parseFmtAux rest none with
        | .error e => .error e
        | .ok items => .ok (.lit (String.singleton c) :: items)

/-- Tokenize a whole template. -/
def parseFmt (l : List Char) : Except FmtErr (List FmtItem) :=
  parseFmtAux l none

/-- Substitute the parsed items left to right against the keyword
dictionary `d`, as `template.format(**d)` does: a positional field
raises `IndexError` (no positional arguments are passed), a named field
absent from `d` raises `KeyError`, a present value is rendered with
`str`. -/
def renderItems (d : TagDict) : List FmtItem → Except FmtErr String
  | [] => .ok ("")
  | .lit s :: rest =>
      match renderItems d rest with
      | .error e => .error e
      | .ok out => .ok (s ++ out)
  | .pos :: _ => .error .indexError
  | .field n :: rest =>
      match List.lookup n d with
      | none => .error (.keyError n)
      | some v =>
          match renderItems d rest with
          | .error e => .error e
          | .ok out => .ok (pyStr v ++ out)

/-- `template.format(**d)`: tokenize, then substitute. -/
def pyFormat (template : String) (d : TagDict) : Except FmtErr String :=
  match parseFmt template.data with
  | .error e => .error e
  | .ok items => renderItems d items

/-- A filesystem mutation performed by the workflows. -/
inductive FsAction where
  | rnm (oldName newName : String)
  | makedirs (dir : String)
  | move (src dst : String)
  deriving DecidableEq, Repr

/-- A candidate path produced by the directory walk: a directory, a file
mutagen cannot parse (`mutagen.File` returns `None`), or a file with a
name, raw tags and a suffix. -/
inductive FileInput where
  | dir
  | noTags
  | tagged (name : String) (raw : RawTags) (suffix : String)
  deriving DecidableEq, Repr

/-- `process_file` of `src/jamz/jamz.py`: resolve the tags (errors there
are never caught), apply the template (errors there are caught exactly
when `ignore_errors` is set, skipping the file), and rename unless
`dry_run` is set.  Returns the optional report row and the filesystem
actions performed; console printing is not modelled. -/
def process_file (template : String) (dry_run ignore_errors : Bool) :
    FileInput → Except RunErr (Option (String × String) × List FsAction)
  | .dir => .ok (none, [])
  | .noTags => .ok (none, [])
  | .tagged name raw suffix =>
      match resolveTags raw suffix with
      | .error e => .error (.py e)
      | .ok tags =>
          match pyFormat template tags with
          | .error e => if ignore_errors then .ok (none, []) else .error (.fmt e)
          | .ok newName =>
              .ok (some (name, newName),
                   if dry_run then [] else [.rnm name newName])

/-- The per-file loop of the `rename` workflow: process each file in
order, collecting the report table and the filesystem actions; an
escaping exception aborts the whole run. -/
def renameRun (template : String) (dry_run ignore_errors : Bool) :
    List FileInput → Except RunErr (List (String × String) × List FsAction)
  | [] => .ok ([], [])
  | f :: rest =>
      match process_file template dry_run ignore_errors f with
      | .error e => .error e
      | .ok (res, acts) =>
          match renameRun template dry_run ignore_errors rest with
          | .error e => .error e
          | .ok (tbl, acts') =>
              .ok ((match res with | none => tbl | some r => r :: tbl),
                   acts ++ acts')

/-- Python subscripting `value[0]` with no exception handler, as used by
the `add` workflow: `TypeError` on an integer, `IndexError` on an empty
string or list, first character of a nonempty string, first element of
a nonempty list. -/
def pyIndex0 : RawValue → Except PyErr Scalar
  | .scalar (.int _) => .error .typeError
  | .scalar (.str s) =>
      match s.data with
      | [] => .error .indexError
      | c :: _ => .ok (.str (String.singleton c))
  | .seq [] => .error .indexError
  | .seq (v :: _) => .ok v

/-- Artist lookup of the `add` workflow: key `artist` first, then
`TPE1`, taking `[0]` of the found value (uncaught exceptions escape);
`none` when neither key is present. -/
def lookupArtist (raw : RawTags) : Except PyErr (Option Scalar) :=
  match List.lookup ("artist") raw with
  | some v => Except.map some (pyIndex0 v)
  | none =>
      match List.lookup ("TPE1") raw with
      | some v => Except.map some (pyIndex0 v)
      | none => .ok none

/-- Album lookup of the `add` workflow: key `album` first, then `TALB`. -/
def lookupAlbum (raw : RawTags) : Except PyErr (Option Scalar) :=
  match List.lookup ("album") raw with
  | some v => Except.map some (pyIndex0 v)
  | none =>
      match List.lookup ("TALB") raw with
      | some v => Except.map some (pyIndex0 v)
      | none => .ok none

/-- The skip message printed by `add` when a field is missing. -/
def missingFieldWarn (field name : String) : String :=
  "Failed to find " ++ field ++ " for file " ++ name ++ ", skipping..."

/-- One iteration of the collection loop of `add`: derive the target
directory `target/sanitize(artist)/sanitize(album)` for a tagged file,
skip with a warning when artist or album is missing, and raise
`TypeError` when `sanitize` (i.e. `re.sub`) is applied to a non-string
value. -/
def addFile (root : String) : FileInput →
    Except PyErr (Option (String × String) × List String)
  | .dir => .ok (none, [])
  | .noTags => .ok (none, [])
  | .tagged name raw _ =>
      match lookupArtist raw with
      | .error e => .error e
      | .ok none => .ok (none, [missingFieldWarn ("artist") name])
      | .ok (some a) =>
          match lookupAlbum raw with
          | .error e => .error e
          | .ok none => .ok (none, [missingFieldWarn ("album") name])
          | .ok (some b) =>
              match a, b with
              | .str sa, .str sb =>
                  .ok (some (name, root ++ "/" ++ sanitize sa ++ "/" ++ sanitize sb), [])
              | _, _ => .error .typeError

/-- The collection loop of `add`: build the movement table and the
warning log over all files. -/
def addCollect (root : String) :
    List FileInput → Except PyErr (List (String × String) × List String)
  | [] => .ok ([], [])
  | f :: rest =>
      match addFile root f with
      | .error e => .error e
      | .ok (res, ws) =>
          match addCollect root rest with
          | .error e => .error e
          | .ok (tbl, ws') =>
              .ok ((match res with | none => tbl | some r => r :: tbl),
                   ws ++ ws')

/-- The `add` workflow: collect the movement table, then either print it
(dry run: no filesystem actions) or create each target directory and
move each file into it. -/
def addRun (root : String) (dry_run : Bool) (files : List FileInput) :
    Except PyErr (List (String × String) × List String × List FsAction) :=
  match addCollect root files with
  | .error e => .error e
  | .ok (tbl, ws) =>
      .ok (tbl, ws,
           if dry_run then []
           else tbl.flatMap (fun p => [.makedirs p.2, .move p.1 p.2]))

/-- The filesystem actions of a `rename` run (none when it aborted). -/
def renameEffects (e : Except RunErr (List (String × String) × List FsAction)) :
    List FsAction :=
  match e with
  | .error _ => []
  | .ok r => r.2

/-- The filesystem actions of an `add` run (none when it aborted). -/
def addEffects
    (e : Except PyErr (List (String × String) × List String × List FsAction)) :
    List FsAction :=
  match e with
  | .error _ => []
  | .ok r => r.2.2

/-! ### Dictionary lemmas -/

theorem lookup_cons_self {α : Type} (k : String) (v : α) (rest : List (String × α)) :
    List.lookup k ((k, v) :: rest) = some v := by
  simp [List.lookup]

theorem lookup_cons_ne {α : Type} (k k' : String) (v : α) (rest : List (String × α))
    (h : k' ≠ k) : List.lookup k' ((k, v) :: rest) = List.lookup k' rest := by
  simp [List.lookup, beq_eq_false_iff_ne.mpr h]

theorem lookup_dictInsert_self {α : Type} (d : List (String × α)) (k : String) (v : α) :
    List.lookup k (dictInsert d k v) = some v := by
  induction d with
  | nil => exact lookup_cons_self k v []
  | cons p rest ih =>
    obtain ⟨k', v'⟩ := p
    show List.lookup k (if k' = k then (k, v) :: rest else (k', v') :: dictInsert rest k v)
      = some v
    by_cases h : k' = k
    · rw [if_pos h]
      exact lookup_cons_self k v rest
    · rw [if_neg h, lookup_cons_ne k' k v' _ (Ne.symm h)]
      exact ih

theorem lookup_dictInsert_ne {α : Type} (d : List (String × α)) (k k' : String) (v : α)
    (h : k' ≠ k) : List.lookup k' (dictInsert d k v) = List.lookup k' d := by
  induction d with
  | nil =>
    show List.lookup k' [(k, v)] = List.lookup k' []
    rw [lookup_cons_ne k k' v [] h]
  | cons p rest ih =>
    obtain ⟨k₀, v₀⟩ := p
    show List.lookup k' (if k₀ = k then (k, v) :: rest else (k₀, v₀) :: dictInsert rest k v)
      = List.lookup k' ((k₀, v₀) :: rest)
    by_cases h0 : k₀ = k
    · rw [if_pos h0]
      subst h0
      rw [lookup_cons_ne k₀ k' v rest h, lookup_cons_ne k₀ k' v₀ rest h]
    · rw [if_neg h0]
      by_cases h1 : k' = k₀
      · subst h1
        rw [lookup_cons_self, lookup_cons_self]
      · rw [lookup_cons_ne k₀ k' v₀ (dictInsert rest k v) h1,
          lookup_cons_ne k₀ k' v₀ rest h1, ih]

theorem mem_dictInsert {α : Type} (d : List (String × α)) (k : String) (v : α)
    (p : String × α) (hp : p ∈ dictInsert d k v) : p ∈ d ∨ p = (k, v) := by
  induction d with
  | nil => simpa [dictInsert] using hp
  | cons q rest ih =>
    obtain ⟨k₀, v₀⟩ := q
    by_cases h0 : k₀ = k
    · subst h0
      rcases (by simpa [dictInsert] using hp : p = (k₀, v) ∨ p ∈ rest) with h | h
      · right; exact h
      · left; exact List.mem_cons_of_mem _ h
    · rcases (by simpa [dictInsert, h0] using hp : p = (k₀, v₀) ∨ p ∈ dictInsert rest k v) with h | h
      · left; simp [h]
      · rcases ih h with h' | h'
        · left; exact List.mem_cons_of_mem _ h'
        · right; exact h'

/-! ### Normalization and sanitize lemmas -/

theorem normalizeLoop_mem (raw : RawTags) :
    ∀ acc ft, normalizeLoop acc raw = .ok ft →
      ∀ p ∈ ft, p ∈ acc ∨ ∃ rv, (p.1, rv) ∈ raw ∧ normalizeValue rv = .ok p.2 := by
  induction raw with
  | nil =>
    intro acc ft h p hp
    left
    cases h
    exact hp
  | cons kv rest ih =>
    intro acc ft h p hp
    obtain ⟨k, v⟩ := kv
    cases hv : normalizeValue v with
    | error e =>
      rw [show normalizeLoop acc ((k, v) :: rest)
          = match normalizeValue v with
            | .error e => .error e
            | .ok s => normalizeLoop (dictInsert acc k s) rest from rfl, hv] at h
      cases h
    | ok s =>
      rw [show normalizeLoop acc ((k, v) :: rest)
          = match normalizeValue v with
            | .error e => .error e
            | .ok s => normalizeLoop (dictInsert acc k s) rest from rfl, hv] at h
      rcases ih (dictInsert acc k s) ft h p hp with h' | ⟨rv, hmem, hnv⟩
      · rcases mem_dictInsert acc k s p h' with h'' | h''
        · left; exact h''
        · right
          refine ⟨v, ?_, ?_⟩
          · rw [h'']; exact List.mem_cons_self _ _
          · rw [h'']; exact hv
      · right; exact ⟨rv, List.mem_cons_of_mem _ hmem, hnv⟩

theorem forbidden_replaceChar (c : Char) : forbiddenChar (replaceChar c) = false := by
  unfold replaceChar
  by_cases h : forbiddenChar c
  · rw [if_pos h]; decide
  · rw [if_neg h]; exact Bool.eq_false_iff.mpr h

theorem mem_pyRstrip {c : Char} {l : List Char} (h : c ∈ pyRstrip l) : c ∈ l := by
  unfold pyRstrip at h
  rw [List.mem_reverse] at h
  have := (List.dropWhile_sublist stripChar (l := l.reverse)).mem h
  rwa [List.mem_reverse] at this

theorem map_replaceChar_clean (l : List Char)
    (h : ∀ c ∈ l, forbiddenChar c = false) : l.map replaceChar = l := by
  have : ∀ c ∈ l, replaceChar c = c := by
    intro c hc
    unfold replaceChar
    rw [if_neg (by rw [h c hc]; exact Bool.false_ne_true)]
  rw [List.map_congr_left this]
  simp

theorem dropWhile_idem (p : Char → Bool) (l : List Char) :
    (l.dropWhile p).dropWhile p = l.dropWhile p := by
  induction l with
  | nil => rfl
  | cons a l ih =>
    by_cases h : p a
    · rw [List.dropWhile_cons_of_pos h, ih]
    · rw [List.dropWhile_cons_of_neg h, List.dropWhile_cons_of_neg h]

theorem pyRstrip_idem (l : List Char) : pyRstrip (pyRstrip l) = pyRstrip l := by
  unfold pyRstrip
  rw [List.reverse_reverse, dropWhile_idem]

theorem head_dropWhile_not (p : Char → Bool) (l : List Char) :
    (l.dropWhile p).head?.all (fun c => !(p c)) = true := by
  induction l with
  | nil => rfl
  | cons a l ih =>
    by_cases h : p a
    · rw [List.dropWhile_cons_of_pos h]; exact ih
    · rw [List.dropWhile_cons_of_neg h]
      simp [Option.all, Bool.eq_false_iff.mpr h]

/-! ### Rendering and workflow lemmas -/

theorem render_ok_mem (d : TagDict) :
    ∀ (items : List FmtItem) (out : String), renderItems d items = .ok out →
      ∀ n, FmtItem.field n ∈ items → ∃ v, List.lookup n d = some v := by
  intro items
  induction items with
  | nil =>
    intro out _ n hn
    exact absurd hn (List.not_mem_nil _)
  | cons i rest ih =>
    intro out h n hn
    cases i with
    | lit s =>
      simp only [renderItems] at h
      cases hr : renderItems d rest with
      | error e => rw [hr] at h; cases h
      | ok o =>
        rcases List.mem_cons.mp hn with hh | hh
        · cases hh
        · exact ih o hr n hh
    | pos =>
      simp only [renderItems] at h
      cases h
    | field m =>
      simp only [renderItems] at h
      cases hl : List.lookup m d with
      | none => rw [hl] at h; cases h
      | some v =>
        rw [hl] at h
        cases hr : renderItems d rest with
        | error e => rw [hr] at h; cases h
        | ok o =>
          rcases List.mem_cons.mp hn with hh | hh
          · injection hh with hnm
            subst hnm
            exact ⟨v, hl⟩
          · exact ih o hr n hh

theorem render_cases (d : TagDict) :
    ∀ (items : List FmtItem), FmtItem.pos ∉ items →
      (∃ out, renderItems d items = .ok out) ∨
      (∃ k, renderItems d items = .error (.keyError k) ∧
        FmtItem.field k ∈ items ∧ List.lookup k d = none) := by
  intro items
  induction items with
  | nil =>
    intro _
    left
    exact ⟨(""), rfl⟩
  | cons i rest ih =>
    intro hnp
    have hnp' : FmtItem.pos ∉ rest := fun hh => hnp (List.mem_cons_of_mem _ hh)
    cases i with
    | lit s =>
      rcases ih hnp' with ⟨out, hout⟩ | ⟨k, hk, hmem, hnone⟩
      · left
        refine ⟨s ++ out, ?_⟩
        simp only [renderItems]
        rw [hout]
      · right
        refine ⟨k, ?_, List.mem_cons_of_mem _ hmem, hnone⟩
        simp only [renderItems]
        rw [hk]
    | pos => exact absurd (List.mem_cons_self _ _) hnp
    | field m =>
      cases hl : List.lookup m d with
      | none =>
        right
        refine ⟨m, ?_, List.mem_cons_self _ _, hl⟩
        simp only [renderItems]
        rw [hl]
      | some v =>
        rcases ih hnp' with ⟨out, hout⟩ | ⟨k, hk, hmem, hnone⟩
        · left
          refine ⟨pyStr v ++ out, ?_⟩
          simp only [renderItems]
          rw [hl, hout]
        · right
          refine ⟨k, ?_, List.mem_cons_of_mem _ hmem, hnone⟩
          simp only [renderItems]
          rw [hl, hk]

theorem process_file_dry (template : String) (ign : Bool) (f : FileInput) :
    process_file template true ign f =
      Except.map (fun r => (r.1, ([] : List FsAction))) (process_file template false ign f) := by
  cases f with
  | dir => rfl
  | noTags => rfl
  | tagged name raw suffix =>
    cases hres : resolveTags raw suffix with
    | error e => simp [process_file, hres, Except.map]
    | ok tags =>
      cases hfmt : pyFormat template tags with
      | error e => cases ign <;> simp [process_file, hres, hfmt, Except.map]
      | ok nn => simp [process_file, hres, hfmt, Except.map]

theorem renameRun_dry (template : String) (ign : Bool) (files : List FileInput) :
    renameRun template true ign files =
      Except.map (fun r => (r.1, ([] : List FsAction))) (renameRun template false ign files) := by
  induction files with
  | nil => rfl
  | cons f rest ih =>
    cases hp : process_file template false ign f with
    | error e =>
      have hp' : process_file template true ign f = .error e := by
        rw [process_file_dry, hp]; rfl
      simp [renameRun, hp, hp', Except.map]
    | ok ra =>
      obtain ⟨res, acts⟩ := ra
      have hp' : process_file template true ign f = .ok (res, []) := by
        rw [process_file_dry, hp]; rfl
      cases hr : renameRun template false ign rest with
      | error e =>
        have hr' : renameRun template true ign rest = .error e := by
          rw [ih, hr]; rfl
        simp [renameRun, hp, hp', hr, hr', Except.map]
      | ok ta =>
        obtain ⟨tbl, acts'⟩ := ta
        have hr' : renameRun template true ign rest = .ok (tbl, []) := by
          rw [ih, hr]; rfl
        cases res <;> simp [renameRun, hp, hp', hr, hr', Except.map]

theorem addRun_dry (root : String) (files : List FileInput) :
    addRun root true files =
      Except.map (fun r => (r.1, r.2.1, ([] : List FsAction))) (addRun root false files) := by
  cases hc : addCollect root files with
  | error e => simp [addRun, hc, Except.map]
  | ok tw => obtain ⟨tbl, ws⟩ := tw; simp [addRun, hc, Except.map]

/-! ### Claim theorems -/

/-- C1 (corrected), counterexample to the claim as stated: for the raw
tag set with only `tracknumber = ["3/12"]`, the derived track-number
string keeps the whole value `"3/12"`; the substring before the first
slash is not taken, contrary to the claim that the split-and-coerce step
applies whichever of the two keys is chosen. -/
theorem c1_counterexample :
    normalizeTags [(("tracknumber"), RawValue.seq [Scalar.str ("3/12")])] =
      .ok [(("tracknumber"), Scalar.str ("3/12"))]
    ∧ deriveTracknumber [(("tracknumber"), Scalar.str ("3/12"))] = .ok ("3/12")
    ∧ ("3/12" : String) ≠ ("3") := by
  refine ⟨rfl, rfl, by decide⟩

/-- C1 (amended): the track-number source prefers `TRCK` over
`tracknumber`; when `TRCK` is chosen its value is coerced with `str` and
split before the first `/`; when `tracknumber` is chosen its value is
used verbatim — no split and no coercion — and a non-string value makes
the subsequent `len` call raise `TypeError`; with neither key the track
string is empty. -/
theorem c1_track_source (d : TagDict) :
    (∀ v, List.lookup ("TRCK") d = some v →
      deriveTracknumber d =
        .ok (String.mk ((pyStr v).data.takeWhile (fun c => c ≠ '/'))))
    ∧ (∀ s, List.lookup ("TRCK") d = none →
        List.lookup ("tracknumber") d = some (Scalar.str s) →
        deriveTracknumber d = .ok s)
    ∧ (∀ n, List.lookup ("TRCK") d = none →
        List.lookup ("tracknumber") d = some (Scalar.int n) →
        deriveTracknumber d = .error .typeError)
    ∧ (List.lookup ("TRCK") d = none →
        List.lookup ("tracknumber") d = none →
        deriveTracknumber d = .ok ("")) := by
  refine ⟨?_, ?_, ?_, ?_⟩
  · intro v h
    simp [deriveTracknumber, h]
  · intro s h h'
    simp [deriveTracknumber, h, h']
  · intro n h h'
    simp [deriveTracknumber, h, h']
  · intro h h'
    simp [deriveTracknumber, h, h']

/-- Witness for C1's amended theorem at a concrete dictionary holding
both track keys. -/
theorem c1_witness :
    deriveTracknumber
      [(("TRCK"), Scalar.str ("3/12")), (("tracknumber"), Scalar.str ("7"))] =
      .ok ("3") := by
  have h :=
    (c1_track_source
      [(("TRCK"), Scalar.str ("3/12")), (("tracknumber"), Scalar.str ("7"))]).1
      (Scalar.str ("3/12")) rfl
  rw [h]
  rfl

/-- C2 (corrected), counterexample to the claim as stated: the raw tag
`TRCK = ["-"]` derives the track string `"-"`, and the stored padded
value is `"-0"` (Python `zfill` keeps a leading sign in front of the
inserted zeros), not the plain left-padding `"0-"` stated by the claim. -/
theorem c2_counterexample :
    resolveTags [(("TRCK"), RawValue.seq [Scalar.str ("-")])] (".mp3") =
      .ok [(("TRCK"), Scalar.str ("-")),
           (("jamz_padded_tracknumber"), Scalar.str ("-0")),
           (("jamz_original_suffix"), Scalar.str (".mp3"))]
    ∧ ("-0" : String) ≠ ("0-") := by
  refine ⟨rfl, by decide⟩

/-- C2 (amended): when the derived track string `t` is nonempty the
resolved tag set maps `jamz_padded_tracknumber` to `zfill 2 t` (plain
left-padding with `0`, except that a leading sign keeps its place);
when `t` is empty the key is absent provided no raw tag of that exact
name was present; the claim's examples hold as stated. -/
theorem c2_padding (raw : RawTags) (suffix : String) (ft : TagDict) (t : String)
    (tags : TagDict)
    (h1 : normalizeTags raw = .ok ft)
    (h2 : deriveTracknumber ft = .ok t)
    (h3 : resolveTags raw suffix = .ok tags) :
    (0 < t.length →
      List.lookup ("jamz_padded_tracknumber") tags = some (Scalar.str (zfill 2 t)))
    ∧ (t.length = 0 →
        List.lookup ("jamz_padded_tracknumber") ft = none →
        List.lookup ("jamz_padded_tracknumber") tags = none)
    ∧ resolveTags [(("TRCK"), RawValue.seq [Scalar.str ("3")])] (".mp3") =
        .ok [(("TRCK"), Scalar.str ("3")),
             (("jamz_padded_tracknumber"), Scalar.str ("03")),
             (("jamz_original_suffix"), Scalar.str (".mp3"))]
    ∧ resolveTags [(("TRCK"), RawValue.seq [Scalar.str ("12")])] (".mp3") =
        .ok [(("TRCK"), Scalar.str ("12")),
             (("jamz_padded_tracknumber"), Scalar.str ("12")),
             (("jamz_original_suffix"), Scalar.str (".mp3"))]
    ∧ resolveTags [(("TRCK"), RawValue.seq [Scalar.str ("3/12")])] (".mp3") =
        .ok [(("TRCK"), Scalar.str ("3/12")),
             (("jamz_padded_tracknumber"), Scalar.str ("03")),
             (("jamz_original_suffix"), Scalar.str (".mp3"))] := by
  simp only [resolveTags, h1, h2] at h3
  refine ⟨?_, ?_, rfl, rfl, rfl⟩
  · intro ht
    rw [if_pos ht] at h3
    injection h3 with h4
    rw [← h4]
    rw [lookup_dictInsert_ne _ _ _ _
      (by decide : ("jamz_padded_tracknumber" : String) ≠ ("jamz_original_suffix"))]
    exact lookup_dictInsert_self _ _ _
  · intro ht habs
    rw [if_neg (by omega)] at h3
    injection h3 with h4
    rw [← h4]
    rw [lookup_dictInsert_ne _ _ _ _
      (by decide : ("jamz_padded_tracknumber" : String) ≠ ("jamz_original_suffix"))]
    exact habs

/-- Witness for C2's amended theorem at the raw tag set `TRCK = ["3"]`. -/
theorem c2_witness :
    List.lookup ("jamz_padded_tracknumber")
      [(("TRCK"), Scalar.str ("3")),
       (("jamz_padded_tracknumber"), Scalar.str ("03")),
       (("jamz_original_suffix"), Scalar.str (".mp3"))] =
      some (Scalar.str (zfill 2 ("3"))) :=
  (c2_padding [(("TRCK"), RawValue.seq [Scalar.str ("3")])] (".mp3")
    [(("TRCK"), Scalar.str ("3"))] ("3")
    [(("TRCK"), Scalar.str ("3")),
     (("jamz_padded_tracknumber"), Scalar.str ("03")),
     (("jamz_original_suffix"), Scalar.str (".mp3"))] rfl rfl rfl).1 (by decide)

/-- C3 (corrected), counterexample to the claim as stated: the
string-scalar entry `artist = "AB"` is not kept unchanged — Python
subscripting succeeds on strings, so normalization stores its first
character `"A"`. -/
theorem c3_counterexample :
    normalizeTags [(("artist"), RawValue.scalar (Scalar.str ("AB")))] =
      .ok [(("artist"), Scalar.str ("A"))]
    ∧ Scalar.str ("A") ≠ Scalar.str ("AB") := by
  refine ⟨rfl, by decide⟩

/-- C3 (amended): when normalization succeeds, every entry of the result
comes from a raw entry with the same key via `normalizeValue`, which
replaces a nonempty sequence by its first element, replaces a nonempty
string scalar by its first character (strings are subscriptable), keeps
integer scalars unchanged, and raises an uncaught `IndexError` on empty
sequences and empty strings; the result values are scalars by
construction. -/
theorem c3_normalization (raw : RawTags) (ft : TagDict)
    (h : normalizeTags raw = .ok ft) :
    (∀ p ∈ ft, ∃ rv, (p.1, rv) ∈ raw ∧ normalizeValue rv = .ok p.2)
    ∧ (∀ n, normalizeValue (.scalar (.int n)) = .ok (.int n))
    ∧ (∀ v vs, normalizeValue (.seq (v :: vs)) = .ok v)
    ∧ (∀ c cs, normalizeValue (.scalar (.str (String.mk (c :: cs)))) =
        .ok (.str (String.singleton c)))
    ∧ normalizeValue (.seq []) = .error .indexError
    ∧ normalizeValue (.scalar (.str (""))) = .error .indexError := by
  refine ⟨?_, fun n => rfl, fun v vs => rfl, fun c cs => rfl, rfl, rfl⟩
  intro p hp
  rcases normalizeLoop_mem raw [] ft h p hp with h' | h'
  · exact absurd h' (List.not_mem_nil _)
  · exact h'

/-- Witness for C3's amended theorem at the raw tag set
`artist = "AB"`. -/
theorem c3_witness :
    ∃ rv, (("artist"), rv) ∈ [(("artist"), RawValue.scalar (Scalar.str ("AB")))]
      ∧ normalizeValue rv = .ok (Scalar.str ("A")) :=
  (c3_normalization [(("artist"), RawValue.scalar (Scalar.str ("AB")))]
    [(("artist"), Scalar.str ("A"))] rfl).1
    ((("artist"), Scalar.str ("A"))) (by decide)

/-- C4 (confirmed): `sanitize` is the replacement pass (each of
`/ \ : * ? " < > |` becomes `_`) followed by stripping trailing spaces
and periods; it is total, its output contains no replaced character and
never ends in a space or a period, and the claim's three examples hold. -/
theorem c4_sanitize (s : String) :
    sanitize s = String.mk (pyRstrip (s.data.map replaceChar))
    ∧ ((sanitize s).data.all (fun c => !(forbiddenChar c)) = true)
    ∧ ((sanitize s).data.getLast?.all (fun c => !(stripChar c)) = true)
    ∧ sanitize ("AC/DC") = ("AC_DC")
    ∧ sanitize ("Hello.") = ("Hello")
    ∧ sanitize ("Spaces   ") = ("Spaces") := by
  refine ⟨rfl, ?_, ?_, rfl, rfl, rfl⟩
  · rw [List.all_eq_true]
    intro c hc
    rcases List.mem_map.mp (mem_pyRstrip hc) with ⟨a, _, rfl⟩
    rw [forbidden_replaceChar]
    rfl
  · show (pyRstrip (s.data.map replaceChar)).getLast?.all (fun c => !(stripChar c)) = true
    unfold pyRstrip
    rw [List.getLast?_reverse]
    exact head_dropWhile_not stripChar _

/-- C10 (confirmed): `sanitize` is idempotent — applying the
replace-and-strip pass to an already sanitized string changes nothing. -/
theorem c10_sanitize_idempotent (s : String) : sanitize (sanitize s) = sanitize s := by
  show String.mk (pyRstrip ((pyRstrip (s.data.map replaceChar)).map replaceChar)) =
    String.mk (pyRstrip (s.data.map replaceChar))
  have hclean : ∀ c ∈ pyRstrip (s.data.map replaceChar), forbiddenChar c = false := by
    intro c hc
    rcases List.mem_map.mp (mem_pyRstrip hc) with ⟨a, _, rfl⟩
    exact forbidden_replaceChar a
  rw [map_replaceChar_clean _ hclean, pyRstrip_idem]

/-- C9 (confirmed): whenever tag resolution succeeds, the key
`jamz_original_suffix` maps to the suffix argument verbatim — also when
the suffix is empty, and shadowing any identically-named raw tag. -/
theorem c9_original_suffix (raw : RawTags) (suffix : String) (tags : TagDict)
    (h : resolveTags raw suffix = .ok tags) :
    List.lookup ("jamz_original_suffix") tags = some (Scalar.str suffix) := by
  cases h1 : normalizeTags raw with
  | error e =>
    simp only [resolveTags, h1] at h
    simp at h
  | ok ft =>
    cases h2 : deriveTracknumber ft with
    | error e =>
      simp only [resolveTags, h1, h2] at h
      simp at h
    | ok t =>
      simp only [resolveTags, h1, h2] at h
      injection h with h4
      rw [← h4]
      exact lookup_dictInsert_self _ _ _

/-- Witness for C9 at an empty suffix and a raw tag named
`jamz_original_suffix`, which ends up shadowed. -/
theorem c9_witness :
    List.lookup ("jamz_original_suffix")
      [(("jamz_original_suffix"), Scalar.str (""))] = some (Scalar.str ("")) :=
  c9_original_suffix [(("jamz_original_suffix"), RawValue.seq [Scalar.str (".old")])]
    ("") [(("jamz_original_suffix"), Scalar.str (""))] rfl


/-- C5 (confirmed): for a template that tokenizes into named fields,
substitution fails with a `KeyError` exactly when some placeholder
references a key absent from the tag set, succeeds when every
placeholder key is present, and the claim's `{album}` example raises
`KeyError album`; the spec's positive example substitutes as stated. -/
theorem c5_template_errors (template : String) (d : TagDict) (items : List FmtItem)
    (hp : parseFmt template.data = .ok items) (hnp : FmtItem.pos ∉ items) :
    ((∃ k, pyFormat template d = .error (.keyError k)) ↔
      (∃ n, FmtItem.field n ∈ items ∧ List.lookup n d = none))
    ∧ ((∀ n, FmtItem.field n ∈ items → (List.lookup n d).isSome) →
        ∃ out, pyFormat template d = .ok out)
    ∧ pyFormat ("{album}") [(("artist"), Scalar.str ("Queen"))] =
        .error (.keyError ("album"))
    ∧ pyFormat ("{artist} - {title}{original_suffix}")
        [(("artist"), Scalar.str ("Queen")),
         (("title"), Scalar.str ("Bohemian Rhapsody")),
         (("original_suffix"), Scalar.str (".flac"))] =
        .ok ("Queen - Bohemian Rhapsody.flac") := by
  have hpf : pyFormat template d = renderItems d items := by
    simp only [pyFormat, hp]
  refine ⟨?_, ?_, rfl, rfl⟩
  · rw [hpf]
    constructor
    · rintro ⟨k, hk⟩
      rcases render_cases d items hnp with ⟨out, hout⟩ | ⟨k', _, hmem, hnone⟩
      · rw [hout] at hk
        cases hk
      · exact ⟨k', hmem, hnone⟩
    · rintro ⟨n, hmem, hnone⟩
      rcases render_cases d items hnp with ⟨out, hout⟩ | ⟨k', hk', _, _⟩
      · rcases render_ok_mem d items out hout n hmem with ⟨v, hv⟩
        rw [hv] at hnone
        cases hnone
      · exact ⟨k', hk'⟩
  · intro hall
    rw [hpf]
    rcases render_cases d items hnp with ⟨out, hout⟩ | ⟨k', _, hmem', hnone'⟩
    · exact ⟨out, hout⟩
    · have hs := hall k' hmem'
      rw [hnone'] at hs
      simp at hs

/-- Witness for C5 at the template of the claim's example and an empty
tag set. -/
theorem c5_witness :
    ∃ k, pyFormat ("{album}") ([] : TagDict) = .error (.keyError k) :=
  ((c5_template_errors ("{album}") ([] : TagDict) [FmtItem.field ("album")] rfl
    (by decide)).1).mpr ⟨("album"), by decide, rfl⟩

/-- C6 (confirmed): with `ignore-errors` set, a file whose template
application fails is skipped and the run result is as if the file were
absent; with `ignore-errors` unset, as soon as the failing file is
reached (all earlier files having processed normally) the whole run
aborts with that error, regardless of the files after it. -/
theorem c6_error_policy (template : String) (dry : Bool) (name : String)
    (raw : RawTags) (suffix : String) (tags : TagDict) (e : FmtErr)
    (hres : resolveTags raw suffix = .ok tags)
    (hfmt : pyFormat template tags = .error e)
    (xs ys : List FileInput) :
    (renameRun template dry true (xs ++ FileInput.tagged name raw suffix :: ys) =
      renameRun template dry true (xs ++ ys))
    ∧ (∀ r, renameRun template dry false xs = .ok r →
        renameRun template dry false (xs ++ FileInput.tagged name raw suffix :: ys) =
          .error (.fmt e)) := by
  have hpt : process_file template dry true (FileInput.tagged name raw suffix) =
      .ok (none, []) := by
    simp [process_file, hres, hfmt]
  have hpf : process_file template dry false (FileInput.tagged name raw suffix) =
      .error (.fmt e) := by
    simp [process_file, hres, hfmt]
  constructor
  · induction xs with
    | nil =>
      simp only [List.nil_append]
      cases hr : renameRun template dry true ys with
      | error e2 => simp [renameRun, hpt, hr]
      | ok ta =>
        obtain ⟨tbl, acts⟩ := ta
        simp [renameRun, hpt, hr]
    | cons x xs ih =>
      simp only [List.cons_append]
      cases hx : process_file template dry true x with
      | error e2 => simp [renameRun, hx]
      | ok ra =>
        obtain ⟨res, acts⟩ := ra
        simp only [renameRun, hx]
        rw [ih]
  · have main : ∀ (xs' : List FileInput) r,
        renameRun template dry false xs' = .ok r →
        renameRun template dry false (xs' ++ FileInput.tagged name raw suffix :: ys) =
          .error (.fmt e) := by
      intro xs'
      induction xs' with
      | nil =>
        intro r _
        simp only [List.nil_append]
        simp [renameRun, hpf]
      | cons x xs' ih =>
        intro r hok
        simp only [List.cons_append]
        cases hx : process_file template dry false x with
        | error e2 => simp [renameRun, hx] at hok
        | ok ra =>
          obtain ⟨res, acts⟩ := ra
          simp only [renameRun, hx] at hok ⊢
          cases hr : renameRun template dry false xs' with
          | error e2 => rw [hr] at hok; simp at hok
          | ok ta =>
            have h2 := ih ta hr
            rw [h2]
    exact main xs

/-- Witness for C6 at a concrete run: a taggless file, then a file whose
tags lack `album` under the template `{album}`, then a directory. -/
theorem c6_witness :
    renameRun ("{album}") false true
      [FileInput.noTags, FileInput.tagged ("t.mp3") [] (".mp3"), FileInput.dir] =
      renameRun ("{album}") false true [FileInput.noTags, FileInput.dir] :=
  (c6_error_policy ("{album}") false ("t.mp3") [] (".mp3")
    [(("jamz_original_suffix"), Scalar.str (".mp3"))] (FmtErr.keyError ("album"))
    rfl rfl [FileInput.noTags] [FileInput.dir]).1

/-- C7 (confirmed): in the `add` workflow the target directory of a
tagged file is `targetRoot/sanitize(artist)/sanitize(album)`, artist
being looked up under `artist` with fallback `TPE1` and album under
`album` with fallback `TALB` (the first element of the stored value);
when neither key of a field is present — artist (no `artist`, no
`TPE1`) as well as album (no `album`, no `TALB`) — the file is skipped
with the corresponding warning and the rest of the run proceeds
unchanged; the claim's Beyoncé example holds. -/
theorem c7_add_target (root name suffix : String) (raw : RawTags) (sa sb : String) :
    (lookupArtist raw = .ok (some (Scalar.str sa)) →
      lookupAlbum raw = .ok (some (Scalar.str sb)) →
      addFile root (FileInput.tagged name raw suffix) =
        .ok (some (name, root ++ "/" ++ sanitize sa ++ "/" ++ sanitize sb), []))
    ∧ (∀ v, List.lookup ("artist") raw = some v →
        lookupArtist raw = Except.map some (pyIndex0 v))
    ∧ (∀ v, List.lookup ("artist") raw = none →
        List.lookup ("TPE1") raw = some v →
        lookupArtist raw = Except.map some (pyIndex0 v))
    ∧ (List.lookup ("artist") raw = none → List.lookup ("TPE1") raw = none →
        lookupArtist raw = .ok none)
    ∧ (∀ v, List.lookup ("album") raw = some v →
        lookupAlbum raw = Except.map some (pyIndex0 v))
    ∧ (∀ v, List.lookup ("album") raw = none →
        List.lookup ("TALB") raw = some v →
        lookupAlbum raw = Except.map some (pyIndex0 v))
    ∧ (List.lookup ("album") raw = none → List.lookup ("TALB") raw = none →
        lookupAlbum raw = .ok none)
    ∧ (∀ rest, lookupArtist raw = .ok none →
        addFile root (FileInput.tagged name raw suffix) =
          .ok (none, [missingFieldWarn ("artist") name])
        ∧ addCollect root (FileInput.tagged name raw suffix :: rest) =
            Except.map (fun r => (r.1, missingFieldWarn ("artist") name :: r.2))
              (addCollect root rest))
    ∧ (∀ rest a, lookupArtist raw = .ok (some a) → lookupAlbum raw = .ok none →
        addFile root (FileInput.tagged name raw suffix) =
          .ok (none, [missingFieldWarn ("album") name])
        ∧ addCollect root (FileInput.tagged name raw suffix :: rest) =
            Except.map (fun r => (r.1, missingFieldWarn ("album") name :: r.2))
              (addCollect root rest))
    ∧ addFile ("/music") (FileInput.tagged ("t.mp3")
        [(("TPE1"), RawValue.seq [Scalar.str ("Beyoncé")]),
         (("TALB"), RawValue.seq [Scalar.str ("Lemonade")])] (".mp3")) =
        .ok (some (("t.mp3"), ("/music/Beyoncé/Lemonade")), []) := by
  refine ⟨?_, ?_, ?_, ?_, ?_, ?_, ?_, ?_, ?_, rfl⟩
  · intro ha hb
    simp [addFile, ha, hb]
  · intro v h
    simp [lookupArtist, h]
  · intro v h h'
    simp [lookupArtist, h, h']
  · intro h h'
    simp [lookupArtist, h, h']
  · intro v h
    simp [lookupAlbum, h]
  · intro v h h'
    simp [lookupAlbum, h, h']
  · intro h h'
    simp [lookupAlbum, h, h']
  · intro rest ha
    have haf : addFile root (FileInput.tagged name raw suffix) =
        .ok (none, [missingFieldWarn ("artist") name]) := by
      simp [addFile, ha]
    refine ⟨haf, ?_⟩
    cases hc : addCollect root rest with
    | error e => simp [addCollect, haf, hc, Except.map]
    | ok tw =>
      obtain ⟨tbl, ws⟩ := tw
      simp [addCollect, haf, hc, Except.map]
  · intro rest a ha hb
    have haf : addFile root (FileInput.tagged name raw suffix) =
        .ok (none, [missingFieldWarn ("album") name]) := by
      simp [addFile, ha, hb]
    refine ⟨haf, ?_⟩
    cases hc : addCollect root rest with
    | error e => simp [addCollect, haf, hc, Except.map]
    | ok tw =>
      obtain ⟨tbl, ws⟩ := tw
      simp [addCollect, haf, hc, Except.map]

/-- Witness for C7 at a concrete tagged file whose artist needs
sanitization. -/
theorem c7_witness :
    addFile ("/music") (FileInput.tagged ("x.mp3")
      [(("artist"), RawValue.seq [Scalar.str ("AC/DC")]),
       (("album"), RawValue.seq [Scalar.str ("Back in Black")])] (".mp3")) =
      .ok (some (("x.mp3"), ("/music/AC_DC/Back in Black")), []) := by
  have h := (c7_add_target ("/music") ("x.mp3") (".mp3")
    [(("artist"), RawValue.seq [Scalar.str ("AC/DC")]),
     (("album"), RawValue.seq [Scalar.str ("Back in Black")])]
    ("AC/DC") ("Back in Black")).1 rfl rfl
  rw [h]
  rfl

/-- C8 (confirmed): with dry-run set, neither workflow emits any
filesystem action, while the computed report (rename table, movement
table and warnings) and any abort error are identical to the non-dry
run. -/
theorem c8_dry_run (template root : String) (ign : Bool) (files : List FileInput) :
    renameRun template true ign files =
      Except.map (fun r => (r.1, ([] : List FsAction)))
        (renameRun template false ign files)
    ∧ renameEffects (renameRun template true ign files) = []
    ∧ addRun root true files =
        Except.map (fun r => (r.1, r.2.1, ([] : List FsAction)))
          (addRun root false files)
    ∧ addEffects (addRun root true files) = [] := by
  refine ⟨renameRun_dry template ign files, ?_, addRun_dry root files, ?_⟩
  · cases hx : renameRun template false ign files with
    | error e => simp [renameEffects, renameRun_dry, hx, Except.map]
    | ok r => simp [renameEffects, renameRun_dry, hx, Except.map]
  · cases hx : addRun root false files with
    | error e => simp [addEffects, addRun_dry, hx, Except.map]
    | ok r => simp [addEffects, addRun_dry, hx, Except.map]

end Jamz
